import Mathlib

/-!
Verification development for the `pal.py` auto-responder cog.

The Python source is shallowly embedded:
* `Regex`, `reCompile`, `RePattern` model the fragment of Python's `re`
  module the cog uses (`re.compile(pattern, re.I)`, `Pattern.search`,
  `Pattern.pattern`, `re.error` as a `none` result of compilation);
* `Trigger` with `Trigger.check`, `Trigger.from_dict`, `Trigger.to_dict`
  embeds the `Trigger` class; `random.choice` is embedded by passing the
  random draw as an index `k` and selecting `responses[k % len]`;
* `PalState` holds the in-memory registry (`self.triggers`, in insertion
  order), the persisted config (`self.config.triggers`) and the attachment
  files on disk; the `create`, `pattern`, `delete` and `remove` commands
  and the `on_message` listener are embedded as state transformers.
-/

/-- Abstract syntax of the regular-expression fragment modelled from
Python `re`: literal characters, `.`, alternation, concatenation,
repetition, plus the failing regex produced by derivatives. -/
inductive Regex where
  | fail : Regex
  | eps : Regex
  | chr : Char → Regex
  | dot : Regex
  | alt : Regex → Regex → Regex
  | cat : Regex → Regex → Regex
  | star : Regex → Regex
deriving DecidableEq, Repr

/-- Character comparison used during matching: case-folded when the
pattern was compiled with `re.I`. -/
def charEqv (ic : Bool) (c d : Char) : Bool :=
  if ic then c.toLower == d.toLower else c == d

/-- Does the regex accept the empty string? -/
def Regex.nullable : Regex → Bool
  | .fail => false
  | .eps => true
  | .chr _ => false
  | .dot => false
  | .alt a b => a.nullable || b.nullable
  | .cat a b => a.nullable && b.nullable
  | .star _ => true

/-- Brzozowski derivative of a regex by an input character (`ic`:
case-insensitive flag). -/
def Regex.deriv (ic : Bool) : Regex → Char → Regex
  | .fail, _ => .fail
  | .eps, _ => .fail
  | .chr d, c => if charEqv ic c d then .eps else .fail
  | .dot, c => if c == '\n' then .fail else .eps
  | .alt a b, c => .alt (a.deriv ic c) (b.deriv ic c)
  | .cat a b, c =>
      if a.nullable then .alt (.cat (a.deriv ic c) b) (b.deriv ic c)
      else .cat (a.deriv ic c) b
  | .star a, c => .cat (a.deriv ic c) (.star a)

/-- Whole-string match of a regex against a character list. -/
def Regex.matchList (ic : Bool) (r : Regex) (cs : List Char) : Bool :=
  (cs.foldl (Regex.deriv ic) r).nullable

/-- Does some prefix of `cs` match `r`?  This is the anchored
`Pattern.match`-style test at one position. -/
def Regex.prefixMatch (ic : Bool) (r : Regex) : List Char → Bool
  | [] => r.nullable
  | c :: cs => r.nullable || Regex.prefixMatch ic (r.deriv ic c) cs

/-- Unanchored search, as Python's `Pattern.search`: does the regex match
starting at some position of `cs`? -/
def Regex.searchList (ic : Bool) (r : Regex) : List Char → Bool
  | [] => r.nullable
  | c :: cs => Regex.prefixMatch ic r (c :: cs) || Regex.searchList ic r cs

/-- Metacharacters of the modelled `re` fragment.  Characters outside the
fragment (classes, braces, anchors) are rejected by the parser, so the
model's `reCompile` is defined exactly on the fragment it implements. -/
def isMeta (c : Char) : Bool :=
  ['(', ')', '|', '*', '+', '?', '.', '\\', '[', ']', '\x7b', '\x7d', '^', '$'].contains c

/-- Skip a lazy-quantifier marker `?` directly after a quantifier. -/
def dropLazy (cs : List Char) : List Char :=
  match cs with
  | '?' :: rest => rest
  | _ => cs

/-- Apply an optional quantifier (`*`, `+`, `?`) following an atom. -/
def applySuffix (r : Regex) (cs : List Char) : Regex × List Char :=
  match cs with
  | '*' :: rest => (.star r, dropLazy rest)
  | '+' :: rest => (.cat r (.star r), dropLazy rest)
  | '?' :: rest => (.alt r .eps, dropLazy rest)
  | _ => (r, cs)

mutual

/-- Parse one atom: a group, an escaped punctuation character, `.`,
or a literal character. -/
def parseAtom : Nat → List Char → Option (Regex × List Char)
  | 0, _ => none
  | _ + 1, [] => none
  | fuel + 1, c :: cs =>
    if c = '(' then
      match parseAlt fuel cs with
      | some (r, ')' :: rest) => some (r, rest)
      | _ => none
    else if c = '\\' then
      match cs with
      | [] => none
      | d :: rest => if d.isAlphanum then none else some (.chr d, rest)
    else if c = '.' then some (.dot, cs)
    else if isMeta c then none
    else some (.chr c, cs)

/-- Parse an atom with an optional quantifier. -/
def parseRep : Nat → List Char → Option (Regex × List Char)
  | 0, _ => none
  | fuel + 1, cs =>
    match parseAtom fuel cs with
    | none => none
    | some (r, rest) => some (applySuffix r rest)

/-- Parse a (possibly empty) concatenation of quantified atoms. -/
def parseSeq : Nat → List Char → Option (Regex × List Char)
  | 0, _ => none
  | fuel + 1, cs =>
    match parseRep fuel cs with
    | none => some (.eps, cs)
    | some (r, rest) =>
      match parseSeq fuel rest with
      | some (r2, rest2) => some (.cat r r2, rest2)
      | none => none

/-- Parse an alternation of concatenations. -/
def parseAlt : Nat → List Char → Option (Regex × List Char)
  | 0, _ => none
  | fuel + 1, cs =>
    match parseSeq fuel cs with
    | none => none
    | some (r, rest) =>
      match rest with
      | '|' :: rest2 =>
        match parseAlt fuel rest2 with
        | some (r2, rest3) => some (.alt r r2, rest3)
        | none => none
      | _ => some (r, rest)

end

/-- The regex compiler on the modelled fragment; `none` embeds a raised
`re.error` (e.g. on an unbalanced parenthesis or a stray quantifier). -/
def reCompileRegex (s : String) : Option Regex :=
  match parseAlt (4 * s.length + 4) s.data with
  | some (r, []) => some r
  | _ => none

/-- A compiled pattern, as Python's `re.Pattern`: it retains the source
text (`Pattern.pattern`) and the compile-time flags. -/
structure RePattern where
  source : String
  ignoreCase : Bool
  regex : Regex
deriving DecidableEq

/-- `re.compile(s, flags)` with `ic` standing for the `re.I` flag. -/
def reCompile (s : String) (ic : Bool) : Option RePattern :=
  (reCompileRegex s).map fun r => ⟨s, ic, r⟩

/-- `Pattern.search`: unanchored search over the content. -/
def RePattern.search (p : RePattern) (content : String) : Bool :=
  Regex.searchList p.ignoreCase p.regex content.data

/-- Declarative matching semantics of `Regex`, the specification the
executable matcher is proved against.  A star unfolds into a possibly
empty sequence of nonempty matched chunks. -/
inductive RMatch (ic : Bool) : Regex → List Char → Prop where
  | eps : RMatch ic .eps []
  | chr {c d : Char} : charEqv ic c d = true → RMatch ic (.chr d) [c]
  | dot {c : Char} : c ≠ '\n' → RMatch ic .dot [c]
  | altL {a b : Regex} {s : List Char} : RMatch ic a s → RMatch ic (.alt a b) s
  | altR {a b : Regex} {s : List Char} : RMatch ic b s → RMatch ic (.alt a b) s
  | cat {a b : Regex} {s t : List Char} :
      RMatch ic a s → RMatch ic b t → RMatch ic (.cat a b) (s ++ t)
  | starNil {a : Regex} : RMatch ic (.star a) []
  | starCons {a : Regex} {c : Char} {s t : List Char} :
      RMatch ic a (c :: s) → RMatch ic (.star a) t →
      RMatch ic (.star a) (c :: s ++ t)

theorem rmatch_fail {ic : Bool} {s : List Char} : ¬ RMatch ic .fail s := by
  intro h; cases h

theorem rmatch_cat_inv {ic : Bool} {a b : Regex} {u : List Char}
    (h : RMatch ic (.cat a b) u) :
    ∃ s t, u = s ++ t ∧ RMatch ic a s ∧ RMatch ic b t := by
  cases h with
  | cat hs ht => exact ⟨_, _, rfl, hs, ht⟩

theorem nullable_iff {ic : Bool} {r : Regex} :
    r.nullable = true ↔ RMatch ic r [] := by
  induction r with
  | fail => simp [Regex.nullable]; exact rmatch_fail
  | eps => simp [Regex.nullable]; exact .eps
  | chr d => simp [Regex.nullable]; intro h; cases h
  | dot => simp [Regex.nullable]; intro h; cases h
  | alt a b iha ihb =>
      simp only [Regex.nullable, Bool.or_eq_true]
      constructor
      · rintro (h | h)
        · exact .altL (iha.mp h)
        · exact .altR (ihb.mp h)
      · intro h
        cases h with
        | altL h => exact Or.inl (iha.mpr h)
        | altR h => exact Or.inr (ihb.mpr h)
  | cat a b iha ihb =>
      simp only [Regex.nullable, Bool.and_eq_true]
      constructor
      · rintro ⟨ha, hb⟩
        exact RMatch.cat (iha.mp ha) (ihb.mp hb)
      · intro h
        obtain ⟨s, t, hst, hs, ht⟩ := rmatch_cat_inv h
        have h2 := List.append_eq_nil.mp hst.symm
        exact ⟨iha.mpr (h2.1 ▸ hs), ihb.mpr (h2.2 ▸ ht)⟩
  | star a ih =>
      simp only [Regex.nullable, true_iff]
      exact .starNil

theorem rmatch_star_inv {ic : Bool} {a : Regex} {u : List Char}
    (h : RMatch ic (.star a) u) :
    u = [] ∨ ∃ c s t, u = c :: (s ++ t) ∧ RMatch ic a (c :: s) ∧
      RMatch ic (.star a) t := by
  cases h with
  | starNil => exact Or.inl rfl
  | starCons h1 h2 => exact Or.inr ⟨_, _, _, rfl, h1, h2⟩

theorem deriv_iff {ic : Bool} {r : Regex} {c : Char} {s : List Char} :
    RMatch ic (r.deriv ic c) s ↔ RMatch ic r (c :: s) := by
  induction r generalizing s with
  | fail =>
      simp only [Regex.deriv]
      exact ⟨fun h => absurd h rmatch_fail, fun h => by cases h⟩
  | eps =>
      simp only [Regex.deriv]
      exact ⟨fun h => absurd h rmatch_fail, fun h => by cases h⟩
  | chr d =>
      simp only [Regex.deriv]
      by_cases hc : charEqv ic c d = true
      · simp only [hc, if_true]
        constructor
        · intro h; cases h; exact .chr hc
        · intro h; cases h; exact .eps
      · simp only [hc, if_false]
        constructor
        · intro h; exact absurd h rmatch_fail
        · intro h
          cases h with
          | chr h' => exact absurd h' hc
  | dot =>
      simp only [Regex.deriv]
      by_cases hc : c = '\n'
      · subst hc
        simp only [beq_self_eq_true, if_true]
        constructor
        · intro h; exact absurd h rmatch_fail
        · intro h
          cases h with
          | dot h' => exact absurd rfl h'
      · have hb : (c == '\n') = false := by simp [hc]
        simp only [hb, Bool.false_eq_true, if_false]
        constructor
        · intro h; cases h; exact .dot hc
        · intro h; cases h; exact .eps
  | alt a b iha ihb =>
      simp only [Regex.deriv]
      constructor
      · intro h
        cases h with
        | altL h => exact .altL (iha.mp h)
        | altR h => exact .altR (ihb.mp h)
      · intro h
        cases h with
        | altL h => exact .altL (iha.mpr h)
        | altR h => exact .altR (ihb.mpr h)
  | cat a b iha ihb =>
      simp only [Regex.deriv]
      by_cases hn : a.nullable = true
      · simp only [hn, if_true]
        constructor
        · intro h
          cases h with
          | altL h =>
              obtain ⟨s1, s2, rfl, h1, h2⟩ := rmatch_cat_inv h
              exact RMatch.cat (iha.mp h1) h2
          | altR h =>
              exact RMatch.cat (nullable_iff.mp hn) (ihb.mp h)
        · intro h
          obtain ⟨s1, s2, heq, h1, h2⟩ := rmatch_cat_inv h
          cases s1 with
          | nil =>
              simp only [List.nil_append] at heq
              exact .altR (ihb.mpr (heq ▸ h2))
          | cons c1 s1' =>
              simp only [List.cons_append, List.cons.injEq] at heq
              obtain ⟨rfl, rfl⟩ := heq
              exact .altL (.cat (iha.mpr h1) h2)
      · simp only [hn, Bool.false_eq_true, if_false]
        constructor
        · intro h
          obtain ⟨s1, s2, rfl, h1, h2⟩ := rmatch_cat_inv h
          exact RMatch.cat (iha.mp h1) h2
        · intro h
          obtain ⟨s1, s2, heq, h1, h2⟩ := rmatch_cat_inv h
          cases s1 with
          | nil => exact absurd (nullable_iff.mpr h1) hn
          | cons c1 s1' =>
              simp only [List.cons_append, List.cons.injEq] at heq
              obtain ⟨rfl, rfl⟩ := heq
              exact .cat (iha.mpr h1) h2
  | star a iha =>
      simp only [Regex.deriv]
      constructor
      · intro h
        obtain ⟨s1, s2, rfl, h1, h2⟩ := rmatch_cat_inv h
        exact .starCons (iha.mp h1) h2
      · intro h
        rcases rmatch_star_inv h with heq | ⟨c', s1, s2, heq, h1, h2⟩
        · exact absurd heq (by simp)
        · simp only [List.cons.injEq] at heq
          obtain ⟨rfl, rfl⟩ := heq
          exact .cat (iha.mpr h1) h2

theorem matchList_iff {ic : Bool} {r : Regex} {cs : List Char} :
    Regex.matchList ic r cs = true ↔ RMatch ic r cs := by
  induction cs generalizing r with
  | nil => exact nullable_iff
  | cons c cs ih =>
      show Regex.matchList ic (r.deriv ic c) cs = true ↔ _
      exact ih.trans deriv_iff

theorem prefixMatch_iff {ic : Bool} {r : Regex} {cs : List Char} :
    Regex.prefixMatch ic r cs = true ↔ ∃ n, RMatch ic r (cs.take n) := by
  induction cs generalizing r with
  | nil =>
      simp only [Regex.prefixMatch, List.take_nil]
      exact ⟨fun h => ⟨0, nullable_iff.mp h⟩, fun ⟨_, h⟩ => nullable_iff.mpr h⟩
  | cons c cs ih =>
      simp only [Regex.prefixMatch, Bool.or_eq_true]
      constructor
      · rintro (h | h)
        · exact ⟨0, nullable_iff.mp h⟩
        · obtain ⟨n, hn⟩ := ih.mp h
          exact ⟨n + 1, deriv_iff.mp hn⟩
      · rintro ⟨n, hn⟩
        cases n with
        | zero => exact Or.inl (nullable_iff.mpr hn)
        | succ n => exact Or.inr (ih.mpr ⟨n, deriv_iff.mpr hn⟩)

theorem searchList_iff {ic : Bool} {r : Regex} {cs : List Char} :
    Regex.searchList ic r cs = true ↔
      ∃ i n, RMatch ic r ((cs.drop i).take n) := by
  induction cs with
  | nil =>
      simp only [Regex.searchList, List.drop_nil, List.take_nil]
      exact ⟨fun h => ⟨0, 0, nullable_iff.mp h⟩, fun ⟨_, _, h⟩ => nullable_iff.mpr h⟩
  | cons c cs ih =>
      simp only [Regex.searchList, Bool.or_eq_true]
      constructor
      · rintro (h | h)
        · obtain ⟨n, hn⟩ := prefixMatch_iff.mp h
          exact ⟨0, n, hn⟩
        · obtain ⟨i, n, hn⟩ := ih.mp h
          exact ⟨i + 1, n, hn⟩
      · rintro ⟨i, n, hn⟩
        cases i with
        | zero => exact Or.inl (prefixMatch_iff.mpr ⟨n, hn⟩)
        | succ i => exact Or.inr (ih.mpr ⟨i, n, hn⟩)

/-- One response payload of a trigger: the reply text and, when the
response carries an attachment, the stored file name (the `"file"` key of
the response dict). -/
structure Response where
  text : String
  file : Option String
deriving DecidableEq

/-- The `Trigger` class: a name, an optional compiled case-insensitive
pattern, and the ordered response list. -/
structure Trigger where
  name : String
  pattern : Option RePattern
  responses : List Response
deriving DecidableEq

/-- `Trigger.check(author, content)`.  The call to `random.choice` is
embedded by passing the random draw `k` and selecting the response at
index `k % len(responses)`; `author` is accepted and unused, as in the
source. -/
def Trigger.check (t : Trigger) (author : Nat) (content : String) (k : Nat) :
    Option Response :=
  match t.pattern with
  | none => none
  | some p =>
    if t.responses.isEmpty then none
    else if p.search content then t.responses.get? (k % t.responses.length)
    else none

/-- One serialized trigger entry of the persisted config list. -/
structure TriggerRecord where
  name : String
  pattern : Option String
  responses : List Response
deriving DecidableEq

/-- `Trigger.to_dict`. -/
def Trigger.to_dict (t : Trigger) : TriggerRecord :=
  ⟨t.name, t.pattern.map RePattern.source, t.responses⟩

/-- `Trigger.from_dict`: `re.compile(d["pattern"], re.I) if d["pattern"]
else None`, so a `None` or `""` stored pattern (both falsy) yields no
pattern; a compile failure propagates (`none` result). -/
def Trigger.from_dict (d : TriggerRecord) : Option Trigger :=
  match d.pattern with
  | none => some ⟨d.name, none, d.responses⟩
  | some s =>
    if s = "" then some ⟨d.name, none, d.responses⟩
    else
      match reCompile s true with
      | none => none
      | some p => some ⟨d.name, some p, d.responses⟩

/-- `ps.stripPrefixChars cs`: the remainder of `cs` after the literal
prefix `ps`, or `none` when `ps` is not a prefix of `cs`. -/
def stripPrefixChars : List Char → List Char → Option (List Char)
  | [], cs => some cs
  | _ :: _, [] => none
  | p :: ps, c :: cs => if c = p then stripPrefixChars ps cs else none

/-- Embeds `self.mention_pattern.match(content)` followed by
`content[len(mention_match.group(0)):]`, where `mention_pattern` is
`re.compile(f'<@!?{uid}> *')`: match `<@`, an optional `!`, the decimal
digits of `uid`, `>`, then greedily consume the following run of space
characters; `none` when the pattern does not match at the start. -/
def mentionStrip (uid : Nat) (cs : List Char) : Option (List Char) := do
  let cs1 ← stripPrefixChars ['<', '@'] cs
  let cs2 := match cs1 with
    | '!' :: rest => rest
    | _ => cs1
  let cs3 ← stripPrefixChars (toString uid).data cs2
  let cs4 ← stripPrefixChars ['>'] cs3
  some (cs4.dropWhile fun c => c = ' ')

/-- An inbound message event (the fields of `discord.Message` the listener
reads). -/
structure Message where
  authorBot : Bool
  authorId : Nat
  content : String
deriving DecidableEq

/-- An emitted reply: the sent text and, for a file response, the trigger
folder and stored file name the sent stream was opened from. -/
structure Reply where
  text : String
  file : Option (String × String)
deriving DecidableEq

/-- Dispatch-time failure: the response's file is absent at send time
(`path.open('rb')` raises). -/
inductive DispatchError where
  | missingAttachment
deriving DecidableEq

instance {ε α : Type} [DecidableEq ε] [DecidableEq α] : DecidableEq (Except ε α) :=
  fun a b =>
    match a, b with
    | .ok x, .ok y =>
        if h : x = y then .isTrue (by rw [h])
        else .isFalse fun hh => h (Except.ok.inj hh)
    | .error x, .error y =>
        if h : x = y then .isTrue (by rw [h])
        else .isFalse fun hh => h (Except.error.inj hh)
    | .ok _, .error _ => .isFalse fun hh => Except.noConfusion hh
    | .error _, .ok _ => .isFalse fun hh => Except.noConfusion hh

/-- `author.mention`. -/
def mentionOf (uid : Nat) : String := "<@" ++ toString uid ++ ">"

/-- The dispatch loop body of `on_message`: evaluate triggers in registry
order, stop at the first whose `check` is non-null. -/
def firstResponse : List Trigger → Nat → String → Nat → Option (Trigger × Response)
  | [], _, _, _ => none
  | t :: ts, author, content, k =>
    match t.check author content k with
    | some r => some (t, r)
    | none => firstResponse ts author content k

/-- `Pal.on_message`: ignore bot authors, require the mention prefix,
strip it, take the first matching trigger's randomly chosen response and
send it (with its file stream when the response has one).  `files` is the
set of attachment files on disk, as (trigger folder, file name) pairs;
`selfId` is the bot's own user id. -/
def on_message (files : List (String × String)) (triggers : List Trigger)
    (selfId : Nat) (msg : Message) (k : Nat) :
    Except DispatchError (Option Reply) :=
  if msg.authorBot then .ok none
  else
    match mentionStrip selfId msg.content.data with
    | none => .ok none
    | some rest =>
      match firstResponse triggers msg.authorId (String.mk rest) k with
      | none => .ok none
      | some (t, r) =>
        match r.file with
        | none => .ok (some ⟨mentionOf msg.authorId ++ " " ++ r.text, none⟩)
        | some f =>
          if files.contains (t.name, f) then
            .ok (some ⟨mentionOf msg.authorId ++ " " ++ r.text, some (t.name, f)⟩)
          else .error .missingAttachment

/-- The cog's shared state: the in-memory registry `self.triggers` (in
insertion order), the persisted config list, and the attachment files on
disk as (trigger folder, file name) pairs. -/
structure PalState where
  triggers : List Trigger
  stored : List TriggerRecord
  files : List (String × String)
deriving DecidableEq

/-- `Pal.get_trigger`. -/
def getTrigger (st : PalState) (tname : String) : Option Trigger :=
  st.triggers.find? fun t => t.name == tname

/-- `Pal.save`: serialize every trigger in registry order and rewrite the
persisted list in full. -/
def Pal.save (st : PalState) : PalState :=
  { st with stored := st.triggers.map Trigger.to_dict }

/-- User-facing rejections the commands report (each is an early `return`
after an error message in the source). -/
inductive PalError where
  | alreadyExists
  | notFound
  | protectedRule
  | invalidPattern
deriving DecidableEq

/-- `self.triggers[trigger.name] = trigger` when the key is already
present: the value is replaced in place, insertion order unchanged. -/
def replaceTrigger (ts : List Trigger) (t' : Trigger) : List Trigger :=
  ts.map fun t => if t.name == t'.name then t' else t

/-- The `create` command: reject a taken name, otherwise append a trigger
with no pattern and no responses and persist. -/
def Pal.create (st : PalState) (tname : String) : PalState × Option PalError :=
  match getTrigger st tname with
  | some _ => (st, some .alreadyExists)
  | none =>
    (Pal.save { st with triggers := st.triggers ++ [⟨tname, none, []⟩] }, none)

/-- The `pattern` command: the `default` trigger is protected; an
uncompilable pattern is rejected with the trigger unchanged; otherwise the
compiled case-insensitive pattern is installed and the registry
persisted. -/
def Pal.pattern (st : PalState) (tname : String) (pat : String) :
    PalState × Option PalError :=
  match getTrigger st tname with
  | none => (st, some .notFound)
  | some t =>
    if t.name == "default" then (st, some .protectedRule)
    else
      match reCompile pat true with
      | none => (st, some .invalidPattern)
      | some p =>
        (Pal.save { st with
          triggers := replaceTrigger st.triggers ⟨t.name, some p, t.responses⟩ }, none)

/-- The `delete` command: the `default` trigger is protected; otherwise
remove the trigger's attachment folder, drop it from the registry and
persist. -/
def Pal.delete (st : PalState) (tname : String) : PalState × Option PalError :=
  match getTrigger st tname with
  | none => (st, some .notFound)
  | some t =>
    if t.name == "default" then (st, some .protectedRule)
    else
      Pal.save { triggers := st.triggers.filter fun x => !(x.name == t.name),
                 stored := st.stored,
                 files := st.files.filter fun p => !(p.1 == t.name) }
      |> fun st' => (st', none)

/-- Python sequence index normalization: non-negative indices are bounds
checked, negative indices count from the end; `none` embeds a raised
`IndexError`. -/
def pyIdx (len : Nat) (i : Int) : Option Nat :=
  if 0 ≤ i then
    if i.toNat < len then some i.toNat else none
  else
    if i.natAbs ≤ len then some (len - i.natAbs) else none

/-- `l[i]` with Python index semantics. -/
def pyGet {α : Type} (l : List α) (i : Int) : Option α :=
  (pyIdx l.length i).bind fun n => l.get? n

/-- `del l[i]` with Python index semantics (the session only reaches it
with a valid index; an invalid one leaves the list unchanged here because
the surrounding render already raised). -/
def pyDel {α : Type} (l : List α) (i : Int) : List α :=
  match pyIdx l.length i with
  | some n => l.eraseIdx n
  | none => l

/-- The display list built once at session start: one string per
response, annotated when a file is attached. -/
def buildPages (resps : List Response) : List String :=
  resps.map fun r =>
    match r.file with
    | some f => r.text ++ "\n\n**File:** " ++ f
    | none => r.text

/-- A qualifying reaction event of the browse-and-delete session (already
filtered to the four control emojis and the invoking user, as the
`wait_for` check does). -/
inductive RemoveEvent where
  | prev
  | next
  | close
  | del
deriving DecidableEq

/-- How a browse-and-delete session ended. -/
inductive SessionEnd where
  /-- an uncaught `IndexError` from `pages[page]` or
  `trigger.responses[page]` -/
  | indexError
  /-- `asyncio.TimeoutError`: the events ran out -/
  | timedOut
  /-- the close control -/
  | closed
  /-- the last response was deleted; "There's no more responses to
  delete!" was sent -/
  | emptied
deriving DecidableEq

/-- Result of a browse-and-delete session: the trigger's response list
and the files on disk after the in-place mutations, how the session
ended, and whether `msg.clear_reactions()` ran (it does not when an
uncaught `IndexError` aborts the command). -/
structure SessionOut where
  responses : List Response
  files : List (String × String)
  outcome : SessionEnd
  cleared : Bool
deriving DecidableEq

/-- The `while True` loop of the `remove` command.  Each iteration
renders `pages[page]`, waits for the next qualifying event (list
exhaustion embeds the 30-second timeout), and handles it; `page` is
re-normalized modulo the current page count after every handled
movement or deletion, exactly as `page %= len(pages)` does. -/
def removeLoop (fname : String) (pages : List String) (resps : List Response)
    (files : List (String × String)) (page : Int)
    (events : List RemoveEvent) : SessionOut :=
  match pyGet pages page with
    | none => ⟨resps, files, .indexError, false⟩
    | some _ =>
      match events with
      | [] => ⟨resps, files, .timedOut, true⟩
      | e :: rest =>
        match e with
        | .close => ⟨resps, files, .closed, true⟩
        | .prev =>
          removeLoop fname pages resps files ((page - 1) % (pages.length : Int)) rest
        | .next =>
          removeLoop fname pages resps files ((page + 1) % (pages.length : Int)) rest
        | .del =>
          let pages' := pyDel pages page
          match pyGet resps page with
          | none => ⟨resps, files, .indexError, false⟩
          | some r =>
            let files' :=
              match r.file with
              | some f => files.filter fun q => !(q == (fname, f))
              | none => files
            let resps' := pyDel resps page
            if pages' = [] then ⟨resps', files', .emptied, true⟩
            else
              removeLoop fname pages' resps' files'
                (page % (pages'.length : Int)) rest

/-- Result of the `remove` command: the converter rejected the name, or
the session ran and ended as recorded. -/
inductive RemoveResult where
  | notFound
  | ran (e : SessionEnd)
deriving DecidableEq

/-- The `remove` command: build the display list, run the session from
page 0, and write the mutated response list back to the in-memory
trigger.  Note it never calls `Pal.save`: `stored` is left as it was. -/
def Pal.remove (st : PalState) (tname : String) (events : List RemoveEvent) :
    PalState × RemoveResult :=
  match getTrigger st tname with
  | none => (st, .notFound)
  | some t =>
    let out := removeLoop t.name (buildPages t.responses) t.responses st.files 0 events
    ({ triggers := replaceTrigger st.triggers ⟨t.name, t.pattern, out.responses⟩,
       stored := st.stored,
       files := out.files }, .ran out.outcome)

/-! Concrete fixtures used by the witness theorems. -/

/-- A plain text response. -/
def exR1 : Response := ⟨"hello!", none⟩

/-- A response carrying an attachment file. -/
def exR2 : Response := ⟨"yo", some "ab2xK9qW_img.png"⟩

/-- The pattern `hi` compiled with `re.I`. -/
def exPat : RePattern := (reCompile "hi" true).getD ⟨"", true, .fail⟩

/-- The pattern `bye` compiled with `re.I`. -/
def exPatBye : RePattern := (reCompile "bye" true).getD ⟨"", true, .fail⟩

/-- A trigger on `hi` with two responses. -/
def exTrigger : Trigger := ⟨"greet", some exPat, [exR1, exR2]⟩

/-- A trigger whose pattern does not match `hi`-style content. -/
def exMiss : Trigger := ⟨"miss", some exPatBye, [⟨"farewell", none⟩]⟩

/-- A second trigger that also matches `hi` content, registered later. -/
def exAlso : Trigger := ⟨"also", some exPat, [⟨"second", none⟩]⟩

/-- Helper: the head of a `dropWhile` result never satisfies the
predicate. -/
theorem dropWhile_head_not {α : Type} (p : α → Bool) (l : List α) :
    ∀ a, (l.dropWhile p).head? = some a → p a = false := by
  induction l with
  | nil => intro a h; simp [List.dropWhile] at h
  | cons c l ih =>
      intro a h
      by_cases hc : p c = true
      · rw [List.dropWhile_cons, if_pos hc] at h
        exact ih a h
      · rw [List.dropWhile_cons, if_neg hc] at h
        simp only [List.head?_cons, Option.some.injEq] at h
        subst h
        exact Bool.not_eq_true _ |>.mp hc

/-- C1: `Trigger.check` returns null when the pattern is unset or the
responses list is empty; otherwise it performs an unanchored substring
search of the content against the compiled pattern (the search succeeds
exactly when some substring of the content is in the pattern's language);
on a match it returns the response selected by the random draw, and every
index of the full responses list is a possible selection; on no match it
returns null. -/
theorem trigger_check_correct (t : Trigger) (author : Nat) (content : String)
    (k : Nat) :
    ((t.pattern = none ∨ t.responses = []) → t.check author content k = none) ∧
    (∀ p, t.pattern = some p →
      (p.search content = true ↔
        ∃ i n, RMatch p.ignoreCase p.regex ((content.data.drop i).take n)) ∧
      (t.responses ≠ [] → p.search content = true →
        ∀ j, ∀ hj : j < t.responses.length,
          t.check author content j = some (t.responses.get ⟨j, hj⟩)) ∧
      (p.search content = false → t.check author content k = none)) := by
  constructor
  · intro h
    match htp : t.pattern with
    | none => simp [Trigger.check, htp]
    | some p =>
      rcases h with hp | hr
      · rw [htp] at hp; exact absurd hp (by simp)
      · simp [Trigger.check, htp, hr]
  · intro p hp
    refine ⟨searchList_iff, ?_, ?_⟩
    · intro hne hs j hj
      have hie : t.responses.isEmpty = false := by
        cases hzz : t.responses with
        | nil => exact absurd hzz hne
        | cons a l => rfl
      simp only [Trigger.check, hp, hie, Bool.false_eq_true, if_false, hs,
        if_true]
      rw [Nat.mod_eq_of_lt hj, List.get?_eq_get hj]
    · intro hs
      simp [Trigger.check, hp, hs]

/-- C1 witness: for the `hi` trigger and addressed content `say HI there`
(case-insensitive match), each random draw selects the corresponding
response of the full list. -/
theorem trigger_check_correct_witness :
    exTrigger.check 9 "say HI there" 1 = some exR2 := by
  have h :=
    ((trigger_check_correct exTrigger 9 "say HI there" 1).2 exPat rfl).2.1
      (by decide) (by decide) 1 (by decide)
  exact h

/-- Helper: the dispatch loop returns the first matching trigger's
response when every earlier trigger's check is null. -/
theorem firstResponse_first (ts1 : List Trigger) (t : Trigger)
    (ts2 : List Trigger) {a : Nat} {c : String} {k : Nat} {r : Response}
    (h1 : ∀ t' ∈ ts1, t'.check a c k = none) (ht : t.check a c k = some r) :
    firstResponse (ts1 ++ t :: ts2) a c k = some (t, r) := by
  induction ts1 with
  | nil => simp [firstResponse, ht]
  | cons x xs ih =>
      have hx : x.check a c k = none := h1 x (by simp)
      simp only [List.cons_append, firstResponse, hx]
      exact ih fun t' h' => h1 t' (by simp [h'])

/-- C2: for an addressed message, the dispatcher evaluates triggers in
registry order and stops at the first trigger whose check is non-null:
exactly that trigger's reply is emitted — text-only for a plain response,
text plus file stream for a file-carrying response whose file is on disk,
and (the code's error path) the missing-attachment error when the file is
absent — and in every case the result does not depend on the triggers
after it (they are never evaluated, even if they would match). -/
theorem dispatch_first_match_wins
    (files : List (String × String)) (ts1 ts2 : List Trigger) (t : Trigger)
    (selfId : Nat) (msg : Message) (k : Nat) (rest : List Char) (r : Response)
    (hbot : msg.authorBot = false)
    (hm : mentionStrip selfId msg.content.data = some rest)
    (h1 : ∀ t' ∈ ts1, t'.check msg.authorId (String.mk rest) k = none)
    (ht : t.check msg.authorId (String.mk rest) k = some r) :
    (r.file = none →
      on_message files (ts1 ++ t :: ts2) selfId msg k =
        .ok (some ⟨mentionOf msg.authorId ++ " " ++ r.text, none⟩)) ∧
    (∀ f, r.file = some f → files.contains (t.name, f) = true →
      on_message files (ts1 ++ t :: ts2) selfId msg k =
        .ok (some ⟨mentionOf msg.authorId ++ " " ++ r.text,
          some (t.name, f)⟩)) ∧
    (∀ f, r.file = some f → files.contains (t.name, f) = false →
      on_message files (ts1 ++ t :: ts2) selfId msg k =
        .error .missingAttachment) ∧
    (∀ ts2', on_message files (ts1 ++ t :: ts2) selfId msg k =
      on_message files (ts1 ++ t :: ts2') selfId msg k) := by
  have hfr := firstResponse_first ts1 t ts2 h1 ht
  refine ⟨?_, ?_, ?_, ?_⟩
  · intro hf
    simp only [on_message, hbot, Bool.false_eq_true, if_false, hm, hfr, hf]
  · intro f hf hdisk
    simp only [on_message, hbot, Bool.false_eq_true, if_false, hm, hfr, hf,
      hdisk, if_true]
  · intro f hf hdisk
    simp only [on_message, hbot, Bool.false_eq_true, if_false, hm, hfr, hf,
      hdisk, Bool.false_eq_true, if_false]
  · intro ts2'
    have hfr' := firstResponse_first ts1 t ts2' h1 ht
    simp only [on_message, hbot, Bool.false_eq_true, if_false, hm, hfr, hfr']

/-- C2 witness: with a non-matching trigger first, a matching trigger
second, and another matching trigger third, the second trigger's
file-carrying reply (its stored file being on disk) is emitted and the
third trigger is irrelevant. -/
theorem dispatch_first_match_wins_witness :
    on_message [("greet", "ab2xK9qW_img.png")] [exMiss, exTrigger, exAlso] 5
        ⟨false, 9, "<@5> hi"⟩ 1 =
      .ok (some ⟨"<@9> yo", some ("greet", "ab2xK9qW_img.png")⟩) ∧
    on_message [("greet", "ab2xK9qW_img.png")] [exMiss, exTrigger, exAlso] 5
        ⟨false, 9, "<@5> hi"⟩ 1 =
      on_message [("greet", "ab2xK9qW_img.png")] [exMiss, exTrigger] 5
        ⟨false, 9, "<@5> hi"⟩ 1 := by
  have h := dispatch_first_match_wins [("greet", "ab2xK9qW_img.png")] [exMiss]
    [exAlso] exTrigger 5 ⟨false, 9, "<@5> hi"⟩ 1 "hi".data exR2 rfl (by decide)
    (by decide) (by decide)
  exact ⟨h.2.1 "ab2xK9qW_img.png" rfl (by decide), h.2.2.2 []⟩

/-- C3: a message whose content does not begin with the addressing token
produces no reply, and the outcome is independent of the registry, the
files on disk and the random draw (no trigger is consulted at all). -/
theorem unaddressed_message_ignored (files : List (String × String))
    (ts : List Trigger) (selfId : Nat) (msg : Message) (k : Nat)
    (hm : mentionStrip selfId msg.content.data = none) :
    on_message files ts selfId msg k = .ok none ∧
    ∀ files' ts' k', on_message files' ts' selfId msg k' = .ok none := by
  have key : ∀ (fs : List (String × String)) (ts0 : List Trigger) (k0 : Nat),
      on_message fs ts0 selfId msg k0 = .ok none := by
    intro fs ts0 k0
    by_cases hb : msg.authorBot = true
    · simp [on_message, hb]
    · have hb' : msg.authorBot = false := by
        cases hbb : msg.authorBot
        · rfl
        · exact absurd hbb hb
      simp [on_message, hb', hm]
  exact ⟨key files ts k, fun fs' ts' k' => key fs' ts' k'⟩

/-- C3 witness: content `hi there` (no mention prefix) is ignored even
though a registered trigger would match it. -/
theorem unaddressed_message_ignored_witness :
    on_message [] [exTrigger] 5 ⟨false, 9, "hi there"⟩ 0 = .ok none :=
  (unaddressed_message_ignored [] [exTrigger] 5 ⟨false, 9, "hi there"⟩ 0
    (by decide)).1

/-- C9 counterexample: the mention pattern `<@!?id> *` strips only space
characters.  For content `<@5>\thello` the tab is a whitespace character
that follows the addressing token, yet it remains at the start of the
text handed to rule matching. -/
theorem mention_strip_whitespace_counterexample :
    mentionStrip 5 ("<@5>\thello".data) = some ('\t' :: "hello".data) ∧
    '\t'.isWhitespace = true := by decide

/-- C9 (amended): for a message beginning with the addressing token, the
text handed to rule matching is the content after the token with the run
of following space characters (U+0020) removed, so no space character
remains at its start; other whitespace, such as a tab, is not
stripped. -/
theorem mention_strip_no_leading_space (uid : Nat) (cs rest : List Char)
    (h : mentionStrip uid cs = some rest) :
    rest.head? ≠ some ' ' := by
  simp only [mentionStrip, Option.bind_eq_bind, Option.bind_eq_some] at h
  obtain ⟨cs1, _, h⟩ := h
  obtain ⟨cs3, _, h⟩ := h
  obtain ⟨cs4, _, h⟩ := h
  simp only [Option.some.injEq] at h
  subst h
  intro hh
  have := dropWhile_head_not (fun c => decide (c = ' ')) cs4 ' ' hh
  simp at this

/-- C9 witness: for `<@5>   hello` the three spaces after the token are
stripped and the matched text starts with a non-space. -/
theorem mention_strip_no_leading_space_witness :
    mentionStrip 5 ("<@5>   hello".data) = some ("hello".data) ∧
    ("hello".data).head? ≠ some ' ' :=
  ⟨by decide, mention_strip_no_leading_space 5 ("<@5>   hello".data)
    ("hello".data) (by decide)⟩

/-- C4: a well-formed serialized rule record (its stored pattern, if any,
is nonempty and compiles) deserializes successfully, serializing the
result reproduces the record exactly (name, pattern source, responses
with their file names), and the compiled pattern carries the
case-insensitive flag; independently, a null or empty stored pattern
string deserializes to a trigger with no pattern. -/
theorem trigger_record_roundtrip (d : TriggerRecord) :
    ((∀ s, d.pattern = some s → s ≠ "" ∧ (reCompile s true).isSome = true) →
      ∃ t, Trigger.from_dict d = some t ∧ Trigger.to_dict t = d ∧
        ∀ p, t.pattern = some p → p.ignoreCase = true) ∧
    ((d.pattern = none ∨ d.pattern = some "") →
      Trigger.from_dict d = some ⟨d.name, none, d.responses⟩) := by
  obtain ⟨nm, pat, resps⟩ := d
  constructor
  · intro hwf
    cases pat with
    | none =>
        exact ⟨⟨nm, none, resps⟩, rfl, rfl, fun p hp => Option.noConfusion hp⟩
    | some s =>
        obtain ⟨hne, hcomp⟩ := hwf s rfl
        obtain ⟨p, hp⟩ := Option.isSome_iff_exists.mp hcomp
        have hps : p.source = s ∧ p.ignoreCase = true := by
          simp only [reCompile, Option.map_eq_some'] at hp
          obtain ⟨r, _, hr⟩ := hp
          subst hr
          exact ⟨rfl, rfl⟩
        refine ⟨⟨nm, some p, resps⟩, ?_, ?_, ?_⟩
        · simp [Trigger.from_dict, hne, hp]
        · simp [Trigger.to_dict, hps.1]
        · intro q hq
          cases hq
          exact hps.2
  · rintro (hp | hp) <;> cases hp <;> simp [Trigger.from_dict]

/-- C4 witness: the record `{greet, "hi", [exR1, exR2]}` (one response
with a file name) deserializes and serializes back to itself. -/
theorem trigger_record_roundtrip_witness :
    ∃ t, Trigger.from_dict ⟨"greet", some "hi", [exR1, exR2]⟩ = some t ∧
      Trigger.to_dict t = ⟨"greet", some "hi", [exR1, exR2]⟩ ∧
      ∀ p, t.pattern = some p → p.ignoreCase = true :=
  (trigger_record_roundtrip ⟨"greet", some "hi", [exR1, exR2]⟩).1
    (by intro s hs; cases hs; exact ⟨by decide, by decide⟩)

/-- C6: deleting the trigger named `default`, or changing its pattern,
is rejected with the protected-rule error and the state (registry and
persisted config alike) is returned unchanged; removing all of a
trigger's responses is possible (one delete event per response empties a
one-response trigger without error), and a trigger with no responses
never matches any content. -/
theorem default_trigger_protected (st : PalState) (t : Trigger) (pat : String)
    (h : getTrigger st "default" = some t) :
    Pal.delete st "default" = (st, some .protectedRule) ∧
    Pal.pattern st "default" pat = (st, some .protectedRule) ∧
    (∀ (r : Response) (files : List (String × String)),
      (removeLoop "default" (buildPages [r]) [r] files 0 [.del]).responses = []
        ∧ (removeLoop "default" (buildPages [r]) [r] files 0 [.del]).outcome
            = .emptied) ∧
    (∀ (t' : Trigger) (author : Nat) (content : String) (k : Nat),
      t'.responses = [] → t'.check author content k = none) := by
  have hname : (t.name == "default") = true := by
    have := List.find?_some h
    simpa using this
  refine ⟨?_, ?_, ?_, ?_⟩
  · simp only [Pal.delete, h, hname, if_true]
  · simp only [Pal.pattern, h, hname, if_true]
  · intro r files
    constructor <;>
      simp [removeLoop, buildPages, pyGet, pyDel, pyIdx]
  · intro t' author content k hr
    match htp : t'.pattern with
    | none => simp [Trigger.check, htp]
    | some p => simp [Trigger.check, htp, hr]

/-- C6 witness: in a registry holding the default trigger with one
response, deletion is rejected with the state unchanged, and the
emptied trigger no longer matches. -/
theorem default_trigger_protected_witness :
    Pal.delete ⟨[⟨"default", some exPat, [exR1]⟩], [], []⟩ "default" =
      (⟨[⟨"default", some exPat, [exR1]⟩], [], []⟩, some .protectedRule) ∧
    (removeLoop "default" (buildPages [exR1]) [exR1] [] 0 [.del]).responses
      = [] := by
  have h := default_trigger_protected ⟨[⟨"default", some exPat, [exR1]⟩], [], []⟩
    ⟨"default", some exPat, [exR1]⟩ "x" (by decide)
  exact ⟨h.1, (h.2.2.1 exR1 []).1⟩

/-- C7: when the pattern text fails to compile, the pattern command
reports the invalid-pattern rejection and returns the state unchanged:
the trigger keeps its previous pattern (or absence of one) and its
responses, and nothing is persisted. -/
theorem invalid_pattern_rejected (st : PalState) (tname : String)
    (t : Trigger) (pat : String)
    (hget : getTrigger st tname = some t)
    (hdef : t.name ≠ "default")
    (hbad : reCompile pat true = none) :
    Pal.pattern st tname pat = (st, some .invalidPattern) := by
  have hname : (t.name == "default") = false := by simp [hdef]
  simp only [Pal.pattern, hget, hname, Bool.false_eq_true, if_false, hbad]

/-- C7 witness: setting the unbalanced pattern `(` on the `greet` trigger
is rejected and the state is unchanged. -/
theorem invalid_pattern_rejected_witness :
    Pal.pattern ⟨[exTrigger], [exTrigger.to_dict], []⟩ "greet" "(" =
      (⟨[exTrigger], [exTrigger.to_dict], []⟩, some .invalidPattern) :=
  invalid_pattern_rejected ⟨[exTrigger], [exTrigger.to_dict], []⟩ "greet"
    exTrigger "(" (by decide) (by decide) (by decide)

/-- C8: creating a trigger under a taken name is rejected with the
already-exists error and the state (hence the existing trigger) is
unchanged; under a fresh name a trigger with no pattern and no responses
is appended at the end of the registry order and the registry is
persisted in full. -/
theorem create_trigger_spec (st : PalState) (tname : String) :
    ((getTrigger st tname).isSome = true →
      Pal.create st tname = (st, some .alreadyExists)) ∧
    (getTrigger st tname = none →
      Pal.create st tname =
        ({ triggers := st.triggers ++ [⟨tname, none, []⟩],
           stored := (st.triggers ++ ([⟨tname, none, []⟩] : List Trigger)).map
             Trigger.to_dict,
           files := st.files }, none)) := by
  constructor
  · intro h
    obtain ⟨t, ht⟩ := Option.isSome_iff_exists.mp h
    simp [Pal.create, ht]
  · intro h
    simp [Pal.create, h, Pal.save]

/-- C8 witness: creating `greet` again is rejected; creating the fresh
name `nav` appends a blank trigger after the existing ones and persists
both records. -/
theorem create_trigger_spec_witness :
    Pal.create ⟨[exTrigger], [exTrigger.to_dict], []⟩ "greet" =
      (⟨[exTrigger], [exTrigger.to_dict], []⟩, some .alreadyExists) ∧
    Pal.create ⟨[exTrigger], [exTrigger.to_dict], []⟩ "nav" =
      (⟨[exTrigger, ⟨"nav", none, []⟩],
        [exTrigger.to_dict, ⟨"nav", none, []⟩], []⟩, none) := by
  have h1 := (create_trigger_spec ⟨[exTrigger], [exTrigger.to_dict], []⟩
    "greet").1 (by decide)
  have h2 := (create_trigger_spec ⟨[exTrigger], [exTrigger.to_dict], []⟩
    "nav").2 (by decide)
  exact ⟨h1, by rw [h2]; decide⟩

/-- Registry state with the `greet` trigger, its serialized record
persisted, and its attachment file on disk. -/
def stG : PalState :=
  ⟨[exTrigger], [exTrigger.to_dict], [("greet", "ab2xK9qW_img.png")]⟩

/-- C5 (divergence): the `remove` command never re-persists the registry.
In general the persisted config after any `remove` invocation is exactly
what it was before; at the concrete failing input (a session deleting the
first of two responses) the in-memory trigger has lost the response while
the persisted config still carries it, so memory and storage disagree
when the command completes. -/
theorem remove_never_persists :
    (∀ (st : PalState) (tname : String) (events : List RemoveEvent),
      ((Pal.remove st tname events).1).stored = st.stored) ∧
    ((getTrigger (Pal.remove stG "greet" [.del]).1 "greet").map
        Trigger.responses = some [exR2] ∧
      (Pal.remove stG "greet" [.del]).1.stored = stG.stored ∧
      (Pal.remove stG "greet" [.del]).1.stored ≠
        (Pal.remove stG "greet" [.del]).1.triggers.map Trigger.to_dict) := by
  constructor
  · intro st tname events
    unfold Pal.remove
    split <;> rfl
  · exact ⟨by decide, by decide, by decide⟩

/-- C10: starting a browse-and-delete session on a trigger with no
responses is unhandled: the very first render indexes the empty display
list at position 0 and aborts with an index error, whatever events are
pending and without emitting the no-more-responses report or clearing the
controls; for any trigger with at least one response the initial index 0
is within the display list's bounds. -/
theorem remove_empty_responses_crashes :
    (∀ (fname : String) (files : List (String × String))
        (events : List RemoveEvent),
      removeLoop fname (buildPages []) [] files 0 events =
        ⟨[], files, .indexError, false⟩) ∧
    (∀ resps : List Response, resps ≠ [] → 0 < (buildPages resps).length) := by
  constructor
  · intro fname files events
    cases events <;> rfl
  · intro resps h
    simp only [buildPages, List.length_map]
    exact List.length_pos.mpr h

/-- C10 witness: with an empty response list the session aborts with the
index error even though a close event is pending, while a one-response
list gives the initial index a valid bound. -/
theorem remove_empty_responses_crashes_witness :
    removeLoop "greet" (buildPages []) [] [] 0 [.close] =
      ⟨[], [], .indexError, false⟩ ∧
    0 < (buildPages [exR1]).length :=
  ⟨remove_empty_responses_crashes.1 "greet" [] [.close],
   remove_empty_responses_crashes.2 [exR1] (by decide)⟩
